import Mathlib

/-!
Verification development for the anydir library (crates anydir and
anydir-macro): a uniform abstraction over compile-time-embedded
directories (CtDir) and runtime filesystem directories (RtDir).

Modelling conventions:
* A filesystem path is its list of components (`FsPath`), matching the
  component-wise semantics of Rust's Path::strip_prefix and Path::join.
* File bytes are `Bytes` (a list of byte values); a Rust String is `Str`
  (its list of Unicode scalar values).
* std::io errors are modelled by their ErrorKind; messages are elided
  since the library never inspects them.
* The ambient process/filesystem state is an explicit `FS` record holding
  the results of the std primitives the library calls
  (env::current_dir, fs::read_dir, Path::is_file, fs::read);
  fs::read_to_string is derived from fs::read plus UTF-8 validation,
  matching its documented behaviour.
* The include_dir collaborator crate (not part of this repository) is
  modelled by `Dir`/`IncludeDirFile`, holding exactly what the library
  uses: each captured file's relative path and bytes, and contents_utf8
  as strict UTF-8 validation of the contents.
-/

namespace Anydir

/-- std::io::ErrorKind, restricted to the kinds this development
distinguishes. -/
inductive IoErrorKind where
  | notFound
  | permissionDenied
  | invalidData
  | other
deriving DecidableEq

/-- std::io::Error, modelled by its kind (messages elided). -/
structure IoError where
  kind : IoErrorKind
deriving DecidableEq

/-- A filesystem path as its list of components. -/
abbrev FsPath := List String

/-- Raw file content: a list of byte values. -/
abbrev Bytes := List Nat

/-- A Rust String as its list of Unicode scalar values. -/
abbrev Str := List Nat

/-- Decode one UTF-8 encoded scalar value from the front of a byte list,
following the strict validation table of core::str (rejecting overlong
forms, surrogates and values above 0x10FFFF). -/
def utf8DecodeOne : Bytes → Option (Nat × Bytes)
  | [] => none
  | b0 :: rest =>
    if b0 < 0x80 then some (b0, rest)
    else if b0 < 0xC2 then none
    else if b0 < 0xE0 then
      match rest with
      | b1 :: r =>
        if 0x80 ≤ b1 && b1 < 0xC0 then
          some ((b0 - 0xC0) * 0x40 + (b1 - 0x80), r)
        else none
      | _ => none
    else if b0 < 0xF0 then
      match rest with
      | b1 :: b2 :: r =>
        let lo1 := if b0 = 0xE0 then 0xA0 else 0x80
        let hi1 := if b0 = 0xED then 0xA0 else 0xC0
        if (lo1 ≤ b1 && b1 < hi1) && (0x80 ≤ b2 && b2 < 0xC0) then
          some ((b0 - 0xE0) * 0x1000 + (b1 - 0x80) * 0x40 + (b2 - 0x80), r)
        else none
      | _ => none
    else if b0 < 0xF5 then
      match rest with
      | b1 :: b2 :: b3 :: r =>
        let lo1 := if b0 = 0xF0 then 0x90 else 0x80
        let hi1 := if b0 = 0xF4 then 0x90 else 0xC0
        if (lo1 ≤ b1 && b1 < hi1) && (0x80 ≤ b2 && b2 < 0xC0)
            && (0x80 ≤ b3 && b3 < 0xC0) then
          some ((b0 - 0xF0) * 0x40000 + (b1 - 0x80) * 0x1000
                + (b2 - 0x80) * 0x40 + (b3 - 0x80), r)
        else none
      | _ => none
    else none

/-- Fuelled UTF-8 decoding loop; each step consumes at least one byte, so
the input length is enough fuel. -/
def utf8DecodeAux : Nat → Bytes → Option Str
  | _, [] => some []
  | 0, _ :: _ => none
  | fuel + 1, bs =>
    match utf8DecodeOne bs with
    | none => none
    | some (c, rest) =>
      match utf8DecodeAux fuel rest with
      | none => none
      | some cs => some (c :: cs)

/-- Strict UTF-8 decoding of a whole byte list, as performed by
str::from_utf8 / String::from_utf8: some scalar values when the bytes
are valid UTF-8, none otherwise. -/
def utf8Decode (bs : Bytes) : Option Str :=
  utf8DecodeAux bs.length bs

/-- The ambient process and filesystem state, observed through the std
primitives the library calls. readDir returns, on success, the raw
sequence of per-entry results (each successful entry carrying the
child's file name, so that DirEntry::path() is the base path extended by
that name). -/
structure FS where
  cwd : Except IoError FsPath
  readDir : FsPath → Except IoError (List (Except IoError String))
  isFile : FsPath → Bool
  readFile : FsPath → Except IoError Bytes

/-- fs::read_to_string: read the file's bytes and decode them as UTF-8,
failing with an InvalidData error when they are not valid UTF-8. -/
def FS.read_to_string (fs : FS) (p : FsPath) : Except IoError Str :=
  match fs.readFile p with
  | .ok bytes =>
    match utf8Decode bytes with
    | some s => .ok s
    | none => .error ⟨.invalidData⟩
  | .error e => .error e

/-- include_dir::File (collaborator crate): the captured file's path
relative to the embedded root, and its exact bytes. -/
structure IncludeDirFile where
  path : FsPath
  contents : Bytes
deriving DecidableEq

/-- include_dir::File::contents_utf8: str::from_utf8(contents).ok(). -/
def IncludeDirFile.contents_utf8 (f : IncludeDirFile) : Option Str :=
  utf8Decode f.contents

/-- include_dir::Dir (collaborator crate), reduced to what the library
uses: files() yielding the captured files. -/
structure Dir where
  files : List IncludeDirFile
deriving DecidableEq

/-- CtFileEntry: a compile-time entry borrowing a file of the embedded
image. -/
structure CtFileEntry where
  relative_path : FsPath
  file : IncludeDirFile
deriving DecidableEq

def CtFileEntry.path (e : CtFileEntry) : FsPath :=
  e.relative_path

/-- Compile-time entries have no filesystem path at runtime. -/
def CtFileEntry.absolute_path (_e : CtFileEntry) : Option FsPath :=
  none

def CtFileEntry.read_bytes (e : CtFileEntry) : Except IoError Bytes :=
  .ok e.file.contents

def CtFileEntry.read_string (e : CtFileEntry) : Except IoError Str :=
  match e.file.contents_utf8 with
  | some s => .ok s
  | none => .error ⟨.invalidData⟩

/-- RtFileEntry: a runtime entry owning its absolute and relative paths. -/
structure RtFileEntry where
  absolute_path : FsPath
  relative_path : FsPath
deriving DecidableEq

/-- Path::strip_prefix(base).unwrap_or(p): drop base when it is a
component prefix of p, otherwise leave p unchanged. -/
def stripPrefixOr (base p : FsPath) : FsPath :=
  if base.isPrefixOf p then p.drop base.length else p

/-- RtFileEntry::from_path: obtain the current working directory
(propagating its error), derive the relative path by stripping the cwd
prefix when present, and store the given path as the absolute path. -/
def RtFileEntry.from_path (fs : FS) (absolute_path : FsPath) :
    Except IoError RtFileEntry :=
  match fs.cwd with
  | .ok cwd =>
    .ok { absolute_path := absolute_path,
          relative_path := stripPrefixOr cwd absolute_path }
  | .error e => .error e

def RtFileEntry.path (e : RtFileEntry) : FsPath :=
  e.relative_path

/-- The FileEntry trait method absolute_path on RtFileEntry (named apart
from the structure field of the same source name). -/
def RtFileEntry.absolute_path_fn (e : RtFileEntry) : Option FsPath :=
  some e.absolute_path

def RtFileEntry.read_bytes (fs : FS) (e : RtFileEntry) :
    Except IoError Bytes :=
  fs.readFile e.absolute_path

def RtFileEntry.read_string (fs : FS) (e : RtFileEntry) :
    Except IoError Str :=
  fs.read_to_string e.absolute_path

/-- AnyFileEntry: the tagged sum of the two entry kinds. -/
inductive AnyFileEntry where
  | Ct (entry : CtFileEntry)
  | Rt (entry : RtFileEntry)
deriving DecidableEq

/-- AnyFileEntry::from_path: build an RtFileEntry (propagating its error)
and wrap it. -/
def AnyFileEntry.from_path (fs : FS) (path : FsPath) :
    Except IoError AnyFileEntry :=
  match RtFileEntry.from_path fs path with
  | .ok rt_entry => .ok (AnyFileEntry.Rt rt_entry)
  | .error e => .error e

def AnyFileEntry.path : AnyFileEntry → FsPath
  | .Ct entry => entry.path
  | .Rt entry => entry.path

def AnyFileEntry.absolute_path : AnyFileEntry → Option FsPath
  | .Ct entry => entry.absolute_path
  | .Rt entry => entry.absolute_path_fn

def AnyFileEntry.read_bytes (fs : FS) : AnyFileEntry → Except IoError Bytes
  | .Ct entry => entry.read_bytes
  | .Rt entry => RtFileEntry.read_bytes fs entry

def AnyFileEntry.read_string (fs : FS) : AnyFileEntry → Except IoError Str
  | .Ct entry => entry.read_string
  | .Rt entry => RtFileEntry.read_string fs entry

/-- CtDir: wraps the embedded tree handle. -/
structure CtDir where
  dir : Dir
deriving DecidableEq

/-- CtDir::file_entries: one CtFileEntry per embedded file, carrying the
file's path inside the tree. -/
def CtDir.file_entries (d : CtDir) : List AnyFileEntry :=
  d.dir.files.map (fun f =>
    AnyFileEntry.Ct { relative_path := f.path, file := f })

/-- RtDir: wraps a base path. -/
structure RtDir where
  path : FsPath
deriving DecidableEq

/-- The .flatten() step on read_dir's per-entry results: keep the
successful entries, drop the failed ones. -/
def flattenOk {α : Type} (l : List (Except IoError α)) : List α :=
  l.filterMap (fun x =>
    match x with
    | .ok a => some a
    | .error _ => none)

/-- RtDir::file_entries: read the base directory; on success keep the
children that are regular files, each as an RtFileEntry whose absolute
path is the child's path (base extended by the child's name) and whose
relative path strips the base prefix; on failure return the empty list
(the warning printed to the diagnostic sink is not part of the return
value and is not modelled). -/
def RtDir.file_entries (fs : FS) (d : RtDir) : List AnyFileEntry :=
  match fs.readDir d.path with
  | .ok entries =>
    (flattenOk entries).filterMap (fun name =>
      let absolute_path := d.path ++ [name]
      if fs.isFile absolute_path then
        some (AnyFileEntry.Rt
          { absolute_path := absolute_path,
            relative_path := stripPrefixOr d.path absolute_path })
      else none)
  | .error _ => []

/-- AnyDir: the tagged sum of the two directory kinds. -/
inductive AnyDir where
  | Ct (d : CtDir)
  | Rt (d : RtDir)

def AnyDir.as_rt : AnyDir → Option RtDir
  | .Rt rt => some rt
  | _ => none

def AnyDir.file_entries (fs : FS) : AnyDir → List AnyFileEntry
  | .Ct c => c.file_entries
  | .Rt r => RtDir.file_entries fs r

def anydir_rt (path : FsPath) : AnyDir :=
  AnyDir.Rt { path := path }

def anyfile_from_path (fs : FS) (path : FsPath) :
    Except IoError AnyFileEntry :=
  AnyFileEntry.from_path fs path

/-- char::is_ascii_lowercase. -/
def is_ascii_lowercase (c : Char) : Bool :=
  0x61 ≤ c.toNat && c.toNat ≤ 0x7A

/-- char::is_ascii_uppercase. -/
def is_ascii_uppercase (c : Char) : Bool :=
  0x41 ≤ c.toNat && c.toNat ≤ 0x5A

/-- char::is_ascii_digit. -/
def is_ascii_digit (c : Char) : Bool :=
  0x30 ≤ c.toNat && c.toNat ≤ 0x39

/-- char::is_ascii_alphanumeric. -/
def is_ascii_alphanumeric (c : Char) : Bool :=
  is_ascii_uppercase c || is_ascii_lowercase c || is_ascii_digit c

/-- char::to_ascii_uppercase: subtract 0x20 from an ASCII lowercase
letter, leave every other character unchanged. -/
def to_ascii_uppercase (c : Char) : Char :=
  if is_ascii_lowercase c then Char.ofNat (c.toNat - 0x20) else c

/-- sanitize_identifier from the anydir-macro crate: start from DIR_ and
push, for each character of the path, its ASCII uppercasing when it is
ASCII alphanumeric and an underscore otherwise. -/
def sanitize_identifier (s : List Char) : List Char :=
  s.foldl
    (fun result c =>
      result ++
        [if is_ascii_alphanumeric c then to_ascii_uppercase c else '_'])
    ("DIR_".toList)

/-- The identifier of the static datum generated by embed_dir for a given
path literal: embed_dir computes it as sanitize_identifier of the
literal's value. -/
def embed_dir_ident (dir_path : List Char) : List Char :=
  sanitize_identifier dir_path

/-- The identifier derivation in the words of the specification: uppercase
the ASCII alphanumeric characters of the path, replace every other
character with an underscore, and prefix the result with DIR_. -/
def spec_identifier (s : List Char) : List Char :=
  ("DIR_".toList) ++
    s.map (fun c =>
      if is_ascii_alphanumeric c then to_ascii_uppercase c else '_')

/-- A filesystem state in which every directory read and every file read
fails with NotFound; the working directory is the filesystem root. -/
def fsMissing : FS where
  cwd := .ok []
  readDir := fun _ => .error ⟨.notFound⟩
  isFile := fun _ => false
  readFile := fun _ => .error ⟨.notFound⟩

/-- A runtime entry naming a file that does not exist in fsMissing. -/
def missingEntry : AnyFileEntry :=
  AnyFileEntry.Rt { absolute_path := ["gone.txt"], relative_path := ["gone.txt"] }

/-- A filesystem state whose working directory is home-u and which holds
one readable single-byte file at every path. -/
def fsHome : FS where
  cwd := .ok ["home", "u"]
  readDir := fun _ => .ok [.ok "a.txt"]
  isFile := fun _ => true
  readFile := fun _ => .ok [0x41]

/-- A filesystem state with the same working directory as fsHome but a
completely unreadable filesystem. -/
def fsHomeAlt : FS where
  cwd := .ok ["home", "u"]
  readDir := fun _ => .error ⟨.permissionDenied⟩
  isFile := fun _ => false
  readFile := fun _ => .error ⟨.permissionDenied⟩

/-- A runtime entry naming a file that fsHome can read. -/
def homeEntry : AnyFileEntry :=
  AnyFileEntry.Rt
    { absolute_path := ["home", "u", "a.txt"], relative_path := ["a.txt"] }

/- ---------------------------------------------------------------- -/
/- Helper lemmas shared by the claim theorems.                      -/
/- ---------------------------------------------------------------- -/

theorem stripPrefixOr_append (base rest : FsPath) :
    stripPrefixOr base (base ++ rest) = rest := by
  have h : base.isPrefixOf (base ++ rest) = true :=
    List.isPrefixOf_iff_prefix.mpr (List.prefix_append base rest)
  simp [stripPrefixOr, h, List.drop_left]

theorem filterMap_if_eq {α β : Type} (p : α → Bool) (g : α → β)
    (l : List α) :
    l.filterMap (fun a => if p a then some (g a) else none)
      = (l.filter p).map g := by
  induction l with
  | nil => rfl
  | cons a tl ih =>
    simp only [List.filterMap_cons, List.filter_cons]
    by_cases hp : p a = true
    · simp [hp, ih]
    · simp [hp, ih]

theorem filterMap_entries_eq (fs : FS) (base : FsPath)
    (names : List String) :
    (names.filterMap (fun name =>
      let absolute_path := base ++ [name]
      if fs.isFile absolute_path then
        some (AnyFileEntry.Rt
          { absolute_path := absolute_path,
            relative_path := stripPrefixOr base absolute_path })
      else none))
    = (names.filter (fun n => fs.isFile (base ++ [n]))).map
        (fun n => AnyFileEntry.Rt
          { absolute_path := base ++ [n], relative_path := [n] }) := by
  have hfun :
      (fun name =>
        let absolute_path := base ++ [name]
        if fs.isFile absolute_path then
          some (AnyFileEntry.Rt
            { absolute_path := absolute_path,
              relative_path := stripPrefixOr base absolute_path })
        else none)
      = fun name =>
          if fs.isFile (base ++ [name]) then
            some (AnyFileEntry.Rt
              { absolute_path := base ++ [name], relative_path := [name] })
          else none := by
    funext name
    by_cases hfile : fs.isFile (base ++ [name]) = true
    · simp [hfile, stripPrefixOr_append]
    · simp [hfile]
  rw [hfun]
  exact filterMap_if_eq (fun n => fs.isFile (base ++ [n]))
    (fun n => AnyFileEntry.Rt
      { absolute_path := base ++ [n], relative_path := [n] }) names

theorem rtdir_file_entries_ok (fs : FS) (d : RtDir)
    (raw : List (Except IoError String))
    (h : fs.readDir d.path = .ok raw) :
    RtDir.file_entries fs d =
      ((flattenOk raw).filter (fun n => fs.isFile (d.path ++ [n]))).map
        (fun n => AnyFileEntry.Rt
          { absolute_path := d.path ++ [n], relative_path := [n] }) := by
  unfold RtDir.file_entries
  rw [h]
  exact filterMap_entries_eq fs d.path (flattenOk raw)

theorem stripPrefixOr_eq_nil_iff (base p : FsPath) :
    stripPrefixOr base p = [] ↔ p = [] ∨ base = p := by
  unfold stripPrefixOr
  by_cases hp : base.isPrefixOf p = true
  · rcases List.isPrefixOf_iff_prefix.mp hp with ⟨t, rfl⟩
    rw [if_pos hp, List.drop_left]
    constructor
    · rintro rfl
      right
      simp
    · rintro (habs | heq)
      · exact (List.append_eq_nil.mp habs).2
      · have hl : (base ++ t).length = base.length :=
          (congrArg List.length heq).symm
        rw [List.length_append] at hl
        have ht : t.length = 0 := by omega
        exact List.length_eq_zero.mp ht
  · rw [if_neg hp]
    constructor
    · intro h2
      exact Or.inl h2
    · rintro (h2 | rfl)
      · exact h2
      · exact absurd (List.isPrefixOf_iff_prefix.mpr (List.prefix_refl _)) hp

theorem foldl_append_singleton {α β : Type} (g : α → β) :
    ∀ (l : List α) (acc : List β),
      l.foldl (fun r c => r ++ [g c]) acc = acc ++ l.map g
  | [], acc => by simp
  | a :: tl, acc => by
    simp only [List.foldl_cons, List.map_cons]
    rw [foldl_append_singleton g tl (acc ++ [g a])]
    simp

/- ---------------------------------------------------------------- -/
/- Claim theorems.                                                  -/
/- ---------------------------------------------------------------- -/

/-- C1: for every RtDir whose base directory cannot be read,
file_entries returns the empty sequence; the return type carries no
error channel, so no error is propagated through the return value. -/
theorem c1_unreadable_dir_empty (fs : FS) (d : RtDir) (err : IoError)
    (h : fs.readDir d.path = .error err) :
    RtDir.file_entries fs d = [] := by
  unfold RtDir.file_entries
  rw [h]

/-- Witness for C1 at a concrete unreadable directory. -/
theorem c1_unreadable_dir_empty_wit :
    RtDir.file_entries fsMissing { path := ["nope"] } = [] :=
  c1_unreadable_dir_empty fsMissing { path := ["nope"] } ⟨.notFound⟩ rfl

/-- C3: RtFileEntry::from_path stores the given path as absolute_path and
derives relative_path by stripping the cwd prefix exactly when the path
begins with the cwd; failure to obtain the cwd is the only error and is
surfaced as that I/O error. -/
theorem c3_from_path_spec (fs : FS) (P : FsPath) :
    (∀ cwd, fs.cwd = .ok cwd →
      RtFileEntry.from_path fs P =
        .ok { absolute_path := P,
              relative_path :=
                if cwd.isPrefixOf P then P.drop cwd.length else P }) ∧
    (∀ err, fs.cwd = .error err →
      RtFileEntry.from_path fs P = .error err) := by
  constructor
  · intro cwd h
    unfold RtFileEntry.from_path
    rw [h]
    rfl
  · intro err h
    unfold RtFileEntry.from_path
    rw [h]

/-- Witness for C3: with cwd home-u, the path home-u-data-x.txt yields
relative path data-x.txt and keeps the absolute path. -/
theorem c3_from_path_spec_wit :
    RtFileEntry.from_path fsHome ["home", "u", "data", "x.txt"] =
      .ok { absolute_path := ["home", "u", "data", "x.txt"],
            relative_path := ["data", "x.txt"] } :=
  (c3_from_path_spec fsHome ["home", "u", "data", "x.txt"]).1
    ["home", "u"] rfl

/-- C4: absolute_path yields a value exactly on the Rt variants — none on
a CtFileEntry, the stored path on an RtFileEntry, and on an AnyFileEntry
a value precisely when it wraps an RtFileEntry; all three operations are
total. -/
theorem c4_absolute_path_iff_rt (c : CtFileEntry) (r : RtFileEntry)
    (a : AnyFileEntry) :
    CtFileEntry.absolute_path c = none ∧
    RtFileEntry.absolute_path_fn r = some r.absolute_path ∧
    ((AnyFileEntry.absolute_path a).isSome = true ↔
      ∃ r2, a = AnyFileEntry.Rt r2) := by
  refine ⟨rfl, rfl, ?_⟩
  cases a with
  | Ct entry =>
    simp [AnyFileEntry.absolute_path, CtFileEntry.absolute_path]
  | Rt entry =>
    simp [AnyFileEntry.absolute_path, RtFileEntry.absolute_path_fn]

/-- C8: the AnyFileEntry and AnyDir wrappers forward path, absolute_path,
read_bytes, read_string and file_entries to the wrapped variant
unchanged. -/
theorem c8_wrappers_forward (fs : FS) (c : CtFileEntry) (r : RtFileEntry)
    (cd : CtDir) (rd : RtDir) :
    (AnyFileEntry.path (.Ct c) = c.path ∧
     AnyFileEntry.path (.Rt r) = r.path) ∧
    (AnyFileEntry.absolute_path (.Ct c) = c.absolute_path ∧
     AnyFileEntry.absolute_path (.Rt r) = r.absolute_path_fn) ∧
    (AnyFileEntry.read_bytes fs (.Ct c) = c.read_bytes ∧
     AnyFileEntry.read_bytes fs (.Rt r) = RtFileEntry.read_bytes fs r) ∧
    (AnyFileEntry.read_string fs (.Ct c) = c.read_string ∧
     AnyFileEntry.read_string fs (.Rt r) = RtFileEntry.read_string fs r) ∧
    (AnyDir.file_entries fs (.Ct cd) = cd.file_entries ∧
     AnyDir.file_entries fs (.Rt rd) = RtDir.file_entries fs rd) :=
  ⟨⟨rfl, rfl⟩, ⟨rfl, rfl⟩, ⟨rfl, rfl⟩, ⟨rfl, rfl⟩, ⟨rfl, rfl⟩⟩

/-- C9: the identifier embed_dir generates for a path literal equals the
specified derivation: uppercase the ASCII alphanumerics, replace every
other character with an underscore, and prefix with DIR_. -/
theorem c9_embed_dir_identifier (dir_path : List Char) :
    embed_dir_ident dir_path = spec_identifier dir_path := by
  unfold embed_dir_ident sanitize_identifier spec_identifier
  exact foldl_append_singleton
    (fun c => if is_ascii_alphanumeric c then to_ascii_uppercase c else '_')
    dir_path ("DIR_".toList)

/-- C10: the from-path constructors read nothing but the cwd — their
result is unchanged under any change of the filesystem that keeps the
cwd, and they succeed exactly when the cwd is obtained. -/
theorem c10_from_path_no_fs_inspection (fs fsAlt : FS) (P : FsPath)
    (h : fs.cwd = fsAlt.cwd) :
    RtFileEntry.from_path fs P = RtFileEntry.from_path fsAlt P ∧
    AnyFileEntry.from_path fs P = AnyFileEntry.from_path fsAlt P ∧
    anyfile_from_path fs P = anyfile_from_path fsAlt P ∧
    (RtFileEntry.from_path fs P).isOk = fs.cwd.isOk ∧
    (AnyFileEntry.from_path fs P).isOk = fs.cwd.isOk := by
  have h1 : RtFileEntry.from_path fs P = RtFileEntry.from_path fsAlt P := by
    unfold RtFileEntry.from_path
    rw [h]
  have h2 : AnyFileEntry.from_path fs P = AnyFileEntry.from_path fsAlt P := by
    unfold AnyFileEntry.from_path
    rw [h1]
  refine ⟨h1, h2, h2, ?_, ?_⟩
  · cases hc : fs.cwd with
    | ok cwd => simp [RtFileEntry.from_path, hc, Except.isOk, Except.toBool]
    | error e => simp [RtFileEntry.from_path, hc, Except.isOk, Except.toBool]
  · cases hc : fs.cwd with
    | ok cwd =>
      simp [AnyFileEntry.from_path, RtFileEntry.from_path, hc, Except.isOk, Except.toBool]
    | error e =>
      simp [AnyFileEntry.from_path, RtFileEntry.from_path, hc, Except.isOk, Except.toBool]

/-- Witness for C10 at two concrete filesystems sharing a cwd, one of
them wholly unreadable. -/
theorem c10_from_path_no_fs_inspection_wit :
    RtFileEntry.from_path fsHome ["etc", "motd"] =
      RtFileEntry.from_path fsHomeAlt ["etc", "motd"] ∧
    AnyFileEntry.from_path fsHome ["etc", "motd"] =
      AnyFileEntry.from_path fsHomeAlt ["etc", "motd"] ∧
    anyfile_from_path fsHome ["etc", "motd"] =
      anyfile_from_path fsHomeAlt ["etc", "motd"] ∧
    (RtFileEntry.from_path fsHome ["etc", "motd"]).isOk = fsHome.cwd.isOk ∧
    (AnyFileEntry.from_path fsHome ["etc", "motd"]).isOk = fsHome.cwd.isOk :=
  c10_from_path_no_fs_inspection fsHome fsHomeAlt ["etc", "motd"] rfl

/-- C2 counterexample: for an RtFileEntry whose file cannot be read,
read_string fails with a NotFound error, not an invalid-data error, and
read_bytes does not succeed — so the claimed dichotomy is false at this
input. -/
theorem c2_claim_counterexample :
    ¬ ((∃ bytes s, AnyFileEntry.read_bytes fsMissing missingEntry = .ok bytes ∧
          utf8Decode bytes = some s ∧
          AnyFileEntry.read_string fsMissing missingEntry = .ok s) ∨
       ((AnyFileEntry.read_bytes fsMissing missingEntry).isOk = true ∧
        AnyFileEntry.read_string fsMissing missingEntry =
          .error ⟨.invalidData⟩)) := by
  have hb : AnyFileEntry.read_bytes fsMissing missingEntry =
      .error ⟨.notFound⟩ := rfl
  have hs : AnyFileEntry.read_string fsMissing missingEntry =
      .error ⟨.notFound⟩ := rfl
  intro h
  rcases h with ⟨bytes, s, hok, _, _⟩ | ⟨hok, hinv⟩
  · rw [hb] at hok
    simp at hok
  · rw [hs] at hinv
    simp at hinv

/-- C2 (amended): whenever read_bytes succeeds with some bytes — which is
always the case for a Ct entry — read_string returns the UTF-8 decoding
of exactly those bytes, or fails with an invalid-data error when they
are not valid UTF-8 (read_bytes succeeding in that case by hypothesis). -/
theorem c2_read_string_of_read_bytes (fs : FS) (e : AnyFileEntry)
    (bytes : Bytes) :
    (∀ entry, e = AnyFileEntry.Ct entry →
      (AnyFileEntry.read_bytes fs e).isOk = true) ∧
    (AnyFileEntry.read_bytes fs e = .ok bytes →
      (∃ s, utf8Decode bytes = some s ∧
        AnyFileEntry.read_string fs e = .ok s) ∨
      (utf8Decode bytes = none ∧
        AnyFileEntry.read_string fs e = .error ⟨.invalidData⟩)) := by
  constructor
  · rintro entry rfl
    rfl
  · intro h
    cases e with
    | Ct entry =>
      have hb : entry.file.contents = bytes := Except.ok.inj h
      cases hd : utf8Decode bytes with
      | some s =>
        left
        refine ⟨s, rfl, ?_⟩
        show CtFileEntry.read_string entry = .ok s
        unfold CtFileEntry.read_string IncludeDirFile.contents_utf8
        rw [hb, hd]
      | none =>
        right
        refine ⟨rfl, ?_⟩
        show CtFileEntry.read_string entry = .error ⟨.invalidData⟩
        unfold CtFileEntry.read_string IncludeDirFile.contents_utf8
        rw [hb, hd]
    | Rt entry =>
      have hb : fs.readFile entry.absolute_path = .ok bytes := h
      cases hd : utf8Decode bytes with
      | some s =>
        left
        refine ⟨s, rfl, ?_⟩
        show FS.read_to_string fs entry.absolute_path = .ok s
        unfold FS.read_to_string
        rw [hb]
        simp [hd]
      | none =>
        right
        refine ⟨rfl, ?_⟩
        show FS.read_to_string fs entry.absolute_path = .error ⟨.invalidData⟩
        unfold FS.read_to_string
        rw [hb]
        simp [hd]

/-- Witness for the amended C2 at a concrete readable single-byte file. -/
theorem c2_read_string_of_read_bytes_wit :
    (∃ s, utf8Decode [0x41] = some s ∧
      AnyFileEntry.read_string fsHome homeEntry = .ok s) ∨
    (utf8Decode [0x41] = none ∧
      AnyFileEntry.read_string fsHome homeEntry = .error ⟨.invalidData⟩) :=
  (c2_read_string_of_read_bytes fsHome homeEntry [0x41]).2 rfl

/-- C5: when the base directory is readable, file_entries equals, in
order, the list of successfully-read immediate children that are
regular files, each yielded as an Rt entry whose absolute path is the
child's path as returned by the directory read (the base extended by
the child's name); every other child is omitted. -/
theorem c5_file_entries_exactly_regular_files (fs : FS) (d : RtDir)
    (raw : List (Except IoError String))
    (h : fs.readDir d.path = .ok raw) :
    RtDir.file_entries fs d =
      ((flattenOk raw).filter (fun n => fs.isFile (d.path ++ [n]))).map
        (fun n => AnyFileEntry.Rt
          { absolute_path := d.path ++ [n], relative_path := [n] }) :=
  rtdir_file_entries_ok fs d raw h

/-- Witness for C5 at a concrete directory holding one regular file. -/
theorem c5_file_entries_exactly_regular_files_wit :
    RtDir.file_entries fsHome { path := ["assets"] } =
      ((flattenOk [.ok "a.txt"]).filter
          (fun n => fsHome.isFile (["assets"] ++ [n]))).map
        (fun n => AnyFileEntry.Rt
          { absolute_path := ["assets"] ++ [n], relative_path := [n] }) :=
  c5_file_entries_exactly_regular_files fsHome { path := ["assets"] }
    [.ok "a.txt"] rfl

/-- C6: every entry produced by RtDir enumeration satisfies base path
concatenated with path() equals absolute_path(). -/
theorem c6_base_concat_path_eq_absolute (fs : FS) (d : RtDir)
    (e : AnyFileEntry) (he : e ∈ RtDir.file_entries fs d) :
    AnyFileEntry.absolute_path e = some (d.path ++ AnyFileEntry.path e) := by
  cases hrd : fs.readDir d.path with
  | error err =>
    unfold RtDir.file_entries at he
    rw [hrd] at he
    exact absurd he (List.not_mem_nil e)
  | ok raw =>
    rw [rtdir_file_entries_ok fs d raw hrd] at he
    rcases List.mem_map.mp he with ⟨n, hn, rfl⟩
    rfl

/-- Witness for C6 at a concrete enumerated entry. -/
theorem c6_base_concat_path_eq_absolute_wit :
    AnyFileEntry.absolute_path
        (AnyFileEntry.Rt
          { absolute_path := ["assets", "a.txt"],
            relative_path := ["a.txt"] }) =
      some (["assets"] ++
        AnyFileEntry.path
          (AnyFileEntry.Rt
            { absolute_path := ["assets", "a.txt"],
              relative_path := ["a.txt"] })) :=
  c6_base_concat_path_eq_absolute fsHome { path := ["assets"] }
    (AnyFileEntry.Rt
      { absolute_path := ["assets", "a.txt"], relative_path := ["a.txt"] })
    (by decide)

/-- C7 counterexample: constructing an entry from a path equal to the
current working directory yields an empty relative path, so path() does
return an empty path for one reachable FileEntry. -/
theorem c7_claim_counterexample :
    ∃ e, RtFileEntry.from_path fsHome ["home", "u"] = .ok e ∧
      RtFileEntry.path e = [] := by
  exact ⟨{ absolute_path := ["home", "u"], relative_path := [] }, rfl, rfl⟩

/-- C7 (amended): every FileEntry produced by RtDir enumeration has a
non-empty relative path; so does every entry produced by CtDir
enumeration provided the embedding primitive reports non-empty file
paths; and an entry built by the from-absolute-path constructor has an
empty relative path precisely when the given path is empty or equal to
the current working directory. -/
theorem c7_nonempty_relative_path :
    (∀ (fs : FS) (d : RtDir) (e : AnyFileEntry),
      e ∈ RtDir.file_entries fs d → AnyFileEntry.path e ≠ []) ∧
    (∀ (c : CtDir), (∀ f ∈ c.dir.files, f.path ≠ []) →
      ∀ e ∈ CtDir.file_entries c, AnyFileEntry.path e ≠ []) ∧
    (∀ (fs : FS) (P : FsPath) (e : RtFileEntry),
      RtFileEntry.from_path fs P = .ok e →
      (RtFileEntry.path e = [] ↔ (P = [] ∨ fs.cwd = .ok P))) := by
  refine ⟨?_, ?_, ?_⟩
  · intro fs d e he
    cases hrd : fs.readDir d.path with
    | error err =>
      unfold RtDir.file_entries at he
      rw [hrd] at he
      exact absurd he (List.not_mem_nil e)
    | ok raw =>
      rw [rtdir_file_entries_ok fs d raw hrd] at he
      rcases List.mem_map.mp he with ⟨n, hn, rfl⟩
      simp [AnyFileEntry.path, RtFileEntry.path]
  · intro c hfiles e he
    unfold CtDir.file_entries at he
    rcases List.mem_map.mp he with ⟨f, hf, rfl⟩
    simpa [AnyFileEntry.path, CtFileEntry.path] using hfiles f hf
  · intro fs P e h
    unfold RtFileEntry.from_path at h
    cases hc : fs.cwd with
    | error err =>
      rw [hc] at h
      simp at h
    | ok cwd =>
      rw [hc] at h
      have he : e =
          { absolute_path := P, relative_path := stripPrefixOr cwd P } :=
        (Except.ok.inj h).symm
      subst he
      simp only [Except.ok.injEq]
      show stripPrefixOr cwd P = [] ↔ P = [] ∨ cwd = P
      exact stripPrefixOr_eq_nil_iff cwd P

/-- Witness for the amended C7: an entry built from a path outside the
cwd keeps that non-empty path. -/
theorem c7_nonempty_relative_path_wit :
    RtFileEntry.path
        { absolute_path := ["opt", "x"], relative_path := ["opt", "x"] } =
        [] ↔
      ((["opt", "x"] : FsPath) = [] ∨ fsHome.cwd = .ok ["opt", "x"]) :=
  c7_nonempty_relative_path.2.2 fsHome ["opt", "x"]
    { absolute_path := ["opt", "x"], relative_path := ["opt", "x"] } rfl

end Anydir
